import Mathlib

/-!
Verification of the rule-configuration logic of the FDAM frontend
(`src/Frontend/app/(slides)/rules-config/page.tsx` and
`src/Frontend/components/ui/Pagination.tsx`), shallowly embedded in Lean.

JavaScript strings are `String`; a JavaScript value that may be `undefined`
or a string is `JSStr`; array elements that may be holes (which read back as
`undefined`) are `Option Condition`; JavaScript `number` indices are `Int`.
-/

/-- A JavaScript value that is either `undefined` or a string. -/
inductive JSStr where
  | undef : JSStr
  | str : String → JSStr
deriving DecidableEq, Repr

/-- The `Condition` interface of `rules-config/page.tsx` (lines 37-41):
`field`, `operator`, `value` are string properties.  A property can read as
`undefined` when the object was built by spreading `undefined` (see
`updateCondition` on an out-of-range index), so each property is a `JSStr`. -/
structure Condition where
  field : JSStr
  operator : JSStr
  value : JSStr
deriving DecidableEq, Repr

/-- The three property names of a `Condition` (`keyof Condition`). -/
inductive CondKey where
  | field
  | operator
  | value
deriving DecidableEq, Repr

/-- Computed property write `{...c, [k]: v}` restricted to the written key. -/
def Condition.setKey (c : Condition) : CondKey → JSStr → Condition
  | .field, v => { c with field := v }
  | .operator, v => { c with operator := v }
  | .value, v => { c with value := v }

/-- Property read `c[k]`. -/
def Condition.getKey (c : Condition) : CondKey → JSStr
  | .field => c.field
  | .operator => c.operator
  | .value => c.value

/-- A fully populated condition, as every UI-built condition literal is. -/
def mkCond (f o v : String) : Option Condition :=
  some ⟨.str f, .str o, .str v⟩

/-- The `FormData` interface of `rules-config/page.tsx` (lines 43-50). -/
structure FormData where
  name : String
  description : String
  priority : String
  status : String
  conditions : List (Option Condition)
  matchLogic : String
deriving DecidableEq, Repr

/-- The initial `useState` value of `formData` (lines 57-64). -/
def initialFormData : FormData :=
  { name := ""
    description := ""
    priority := ""
    status := "inactive"
    conditions := []
    matchLogic := "all" }

/-- `defaultConditions` (lines 66-69). -/
def defaultConditions : List (Option Condition) :=
  [mkCond "amount" "greater_than" "10000", mkCond "time" "outside" "9:00-17:00"]

/-- The form state installed after a successful create (lines 492-499):
like the initial state but with `conditions` seeded to `defaultConditions`. -/
def resetFormDataCreate : FormData :=
  { initialFormData with conditions := defaultConditions }

/-- `{...elem, [k]: str v}` where `elem` may be `undefined`:
spreading `undefined` contributes no properties, so every property of the
result other than `k` reads as `undefined` in that case. -/
def spreadUpdate (elem : Option Condition) (k : CondKey) (v : String) : Condition :=
  (elem.getD ⟨.undef, .undef, .undef⟩).setKey k (.str v)

/-- `updateCondition` (lines 71-75):
`newConditions = [...conditions]; newConditions[index] = {...newConditions[index], [k]: v}`.
JavaScript array-index assignment semantics: a negative `index` becomes a
non-index property, leaving the element sequence unchanged; an `index` at or
past the length grows the array with holes and puts the new object (built by
spreading `undefined`) at position `index`; otherwise the element at `index`
is replaced by the spread-updated object. -/
def updateCondition (conds : List (Option Condition)) (index : Int) (k : CondKey)
    (v : String) : List (Option Condition) :=
  if index < 0 then
    conds
  else if index.toNat < conds.length then
    conds.set index.toNat (some (spreadUpdate (conds.getD index.toNat none) k v))
  else
    conds ++ List.replicate (index.toNat - conds.length) none
      ++ [some (spreadUpdate none k v)]

/-- The callback of `conditions.filter((_, i) => i !== index)`, keeping each
element whose position `i` (counted from the accumulator argument) differs
from `index`. -/
def filterOutIndex (index : Int) : Nat → List (Option Condition) → List (Option Condition)
  | _, [] => []
  | i, c :: rest =>
    if (i : Int) = index then filterOutIndex index (i + 1) rest
    else c :: filterOutIndex index (i + 1) rest

/-- `removeCondition` (lines 77-80): `conditions.filter((_, i) => i !== index)`. -/
def removeCondition (conds : List (Option Condition)) (index : Int) :
    List (Option Condition) :=
  filterOutIndex index 0 conds

/-- `addCondition` (lines 82-87): appends
`{field: "amount", operator: "greater_than", value: ""}` to `conditions`. -/
def addCondition (form : FormData) : FormData :=
  { form with conditions := form.conditions ++ [mkCond "amount" "greater_than" ""] }

/-- `s.charAt(0).toUpperCase() + s.slice(1)` (lines 459-460): uppercase the
first character (ASCII, as all priority/status values here are) and keep the
rest; on the empty string every part is empty. -/
def jsCapitalize (s : String) : String :=
  match s.data with
  | [] => ""
  | c :: rest => ⟨c.toUpper :: rest⟩

/-- The wire payload sent to the rules API; same shape as `FormData`. -/
structure RulePayload where
  name : String
  description : String
  priority : String
  status : String
  conditions : List (Option Condition)
  matchLogic : String
deriving DecidableEq, Repr

/-- The `ruleData` object built in the Create/Update click handler
(lines 456-463): `name`, `description`, `conditions`, `matchLogic` are copied
verbatim, `priority` and `status` go through `jsCapitalize`.  No field is
validated. -/
def ruleData (form : FormData) : RulePayload :=
  { name := form.name
    description := form.description
    priority := jsCapitalize form.priority
    status := jsCapitalize form.status
    conditions := form.conditions
    matchLogic := form.matchLogic }

/-- HTTP method of the submission request. -/
inductive Method where
  | post
  | put
deriving DecidableEq, Repr

/-- The fetch request issued by the click handler. -/
structure RuleRequest where
  method : Method
  url : String
  body : RulePayload
deriving DecidableEq, Repr

/-- The Create/Update click handler (lines 455-503) up to the network call:
it unconditionally issues a request — `PUT /api/rules/{id}` when a rule is
selected, else `POST /api/rules` — whose body is `ruleData form`.  There is
no branch that withholds the request. -/
def handleSubmitClick (selectedRule : Option String) (form : FormData) : RuleRequest :=
  match selectedRule with
  | some id => { method := .put, url := "/api/rules/" ++ id, body := ruleData form }
  | none => { method := .post, url := "/api/rules", body := ruleData form }

/-- The local component state touched by the response callbacks. -/
structure PageState where
  selectedRule : Option String
  formData : FormData
deriving DecidableEq, Repr

/-- The `.then(response => ...)` callbacks of the click handler
(lines 474-479 and 489-501): on an ok response the update branch clears
`selectedRule` and the create branch resets `formData` to the seeded blank
form; on a non-ok response neither branch runs any state setter. -/
def handleSubmitResponse (st : PageState) (ok : Bool) : PageState :=
  match st.selectedRule with
  | some _ => if ok then { st with selectedRule := none } else st
  | none => if ok then { st with formData := resetFormDataCreate } else st

/-- Modelled from the spec: the draft-validity predicate of the spec's
`normalize` operation, which the supplied source does not implement anywhere —
`name` non-empty, `priority` set, and no condition with an empty `value`. -/
def specValidDraft (form : FormData) : Bool :=
  form.name != "" && form.priority != "" &&
    form.conditions.all fun c =>
      match c with
      | some cond => cond.value != JSStr.str ""
      | none => true

/-- `Pagination.tsx`, Previous button (lines 15-21): `disabled={currentPage === 1}`. -/
def prevDisabled (currentPage : Int) : Bool :=
  currentPage = 1

/-- `Pagination.tsx`, Next button (lines 25-31): `disabled={currentPage === totalPages}`. -/
def nextDisabled (currentPage totalPages : Int) : Bool :=
  currentPage = totalPages

/-- Page requested by an enabled Previous click: `onPageChange(currentPage - 1)`. -/
def prevTarget (currentPage : Int) : Int :=
  currentPage - 1

/-- Page requested by an enabled Next click: `onPageChange(currentPage + 1)`. -/
def nextTarget (currentPage : Int) : Int :=
  currentPage + 1

/-- Evaluation lemma for the enumeration value `"high"`. -/
theorem jsCapitalize_high : jsCapitalize "high" = "High" := rfl

/-- Evaluation lemma for the enumeration value `"medium"`. -/
theorem jsCapitalize_medium : jsCapitalize "medium" = "Medium" := rfl

/-- Evaluation lemma for the enumeration value `"low"`. -/
theorem jsCapitalize_low : jsCapitalize "low" = "Low" := rfl

/-- Evaluation lemma for the enumeration value `"active"`. -/
theorem jsCapitalize_active : jsCapitalize "active" = "Active" := rfl

/-- Evaluation lemma for the enumeration value `"inactive"`. -/
theorem jsCapitalize_inactive : jsCapitalize "inactive" = "Inactive" := rfl

/-- The click handler's request body is always `ruleData form`. -/
theorem handleSubmitClick_body (sel : Option String) (form : FormData) :
    (handleSubmitClick sel form).body = ruleData form := by
  cases sel <;> rfl

/-- C1, counterexample: the initial draft has an empty `name` (and an unset
`priority` and no conditions), yet the Create click handler submits it: the
handler issues a `POST /api/rules` request carrying the capitalized draft, and
no `ValidationError` path exists in the code. -/
theorem invalid_draft_still_submitted :
    initialFormData.name = "" ∧ specValidDraft initialFormData = false ∧
    handleSubmitClick none initialFormData =
      { method := Method.post
        url := "/api/rules"
        body := { name := "", description := "", priority := "", status := "Inactive",
                  conditions := [], matchLogic := "all" } } :=
  ⟨rfl, rfl, rfl⟩

/-- C1, amended: the submission performs no validation at all.  For every
draft that violates the spec's validity conditions (empty `name`, unset
`priority`, or a condition with empty `value`) the click handler still issues
a request whose body is the capitalization-normalized draft, with the method
determined only by whether a rule is selected. -/
theorem submit_performs_no_validation (sel : Option String) (form : FormData)
    (_h : specValidDraft form = false) :
    (handleSubmitClick sel form).body = ruleData form ∧
    (handleSubmitClick sel form).method =
      (match sel with | some _ => Method.put | none => Method.post) := by
  cases sel <;> exact ⟨rfl, rfl⟩

/-- Witness for `submit_performs_no_validation` at the initial (invalid) draft. -/
theorem submit_performs_no_validation_witness :
    specValidDraft initialFormData = false ∧
    (handleSubmitClick none initialFormData).body = ruleData initialFormData :=
  ⟨rfl, (submit_performs_no_validation none initialFormData rfl).1⟩

/-- C3, counterexample: the initial draft (priority never chosen, so `""`)
can be submitted, and its payload's `priority` is `""`, which is not one of
the capitalized display values. -/
theorem submitted_payload_priority_not_capitalized :
    (handleSubmitClick none initialFormData).body.priority = "" ∧
    (handleSubmitClick none initialFormData).body.priority ∉
      (["High", "Medium", "Low"] : List String) :=
  ⟨rfl, by decide⟩

/-- C3, amended: for every submitted draft whose `priority` is one of the
lowercase UI values `"high"/"medium"/"low"` and whose `status` is one of
`"active"/"inactive"`, the payload's `priority` and `status` are in
capitalized display form. -/
theorem submitted_payload_enums_capitalized (sel : Option String) (form : FormData)
    (hp : form.priority = "high" ∨ form.priority = "medium" ∨ form.priority = "low")
    (hs : form.status = "active" ∨ form.status = "inactive") :
    (handleSubmitClick sel form).body.priority ∈ (["High", "Medium", "Low"] : List String) ∧
    (handleSubmitClick sel form).body.status ∈ (["Active", "Inactive"] : List String) := by
  rw [handleSubmitClick_body]
  constructor
  · rcases hp with h | h | h <;>
      simp [ruleData, h, jsCapitalize_high, jsCapitalize_medium, jsCapitalize_low]
  · rcases hs with h | h <;> simp [ruleData, h, jsCapitalize_active, jsCapitalize_inactive]

/-- Witness for `submitted_payload_enums_capitalized` on an update submission. -/
theorem submitted_payload_enums_capitalized_witness :
    (handleSubmitClick (some "R001")
        { initialFormData with priority := "medium", status := "active" }).body.priority ∈
      (["High", "Medium", "Low"] : List String) ∧
    (handleSubmitClick (some "R001")
        { initialFormData with priority := "medium", status := "active" }).body.status ∈
      (["Active", "Inactive"] : List String) :=
  submitted_payload_enums_capitalized (some "R001")
    { initialFormData with priority := "medium", status := "active" }
    (Or.inr (Or.inl rfl)) (Or.inl rfl)

/-- C4, counterexample: the initial draft's `conditions` list is empty, and
submitting it (the create handler imposes no validation) sends a payload whose
`conditions` is the empty list — an empty conditions sequence does reach the
rules API. -/
theorem empty_conditions_payload_submitted :
    initialFormData.conditions = [] ∧
    (handleSubmitClick none initialFormData).body.conditions = [] :=
  ⟨rfl, rfl⟩

/-- C4, amended: the payload's `conditions` is carried verbatim from the
draft, so the submitted list is empty exactly when the draft's is — nothing
prevents an empty conditions list from being submitted. -/
theorem payload_conditions_carried_verbatim (sel : Option String) (form : FormData) :
    (handleSubmitClick sel form).body.conditions = form.conditions ∧
    ((handleSubmitClick sel form).body.conditions = [] ↔ form.conditions = []) := by
  rw [handleSubmitClick_body]
  exact ⟨rfl, Iff.rfl⟩

/-- C5: on a non-ok response, neither response callback runs any state
setter: `formData` and `selectedRule` are exactly as before the submission,
for both the create and the update branch. -/
theorem failed_response_leaves_state_unchanged (st : PageState) :
    handleSubmitResponse st false = st := by
  rcases st with ⟨sel, fd⟩
  cases sel <;> rfl

/-- C8: `addCondition` appends the default condition
`{field: "amount", operator: "greater_than", value: ""}` at the end, grows the
list by exactly 1, leaves every prior entry in place, and touches no other
field of the form (it performs no validation: it is total and unconditional). -/
theorem addCondition_appends_default (form : FormData) :
    (addCondition form).conditions = form.conditions ++ [mkCond "amount" "greater_than" ""] ∧
    (addCondition form).conditions.length = form.conditions.length + 1 ∧
    (addCondition form).conditions.take form.conditions.length = form.conditions ∧
    (addCondition form).name = form.name ∧
    (addCondition form).description = form.description ∧
    (addCondition form).priority = form.priority ∧
    (addCondition form).status = form.status ∧
    (addCondition form).matchLogic = form.matchLogic := by
  refine ⟨rfl, ?_, ?_, rfl, rfl, rfl, rfl, rfl⟩
  · simp [addCondition]
  · exact List.take_left form.conditions [mkCond "amount" "greater_than" ""]

/-- C9: normalization round-trips the lowercase edit form: a draft with
`priority = "high"` and `status = "active"` normalizes to `"High"`/`"Active"`
with `name`, `description`, `conditions`, `matchLogic` carried unchanged; in
particular the spec's concrete scenario draft normalizes as stated. -/
theorem normalize_capitalizes_roundtrip (n d ml : String)
    (conds : List (Option Condition)) :
    ruleData { name := n, description := d, priority := "high", status := "active",
               conditions := conds, matchLogic := ml } =
      { name := n, description := d, priority := "High", status := "Active",
        conditions := conds, matchLogic := ml } ∧
    ruleData { name := "High Amount", description := "", priority := "high",
               status := "active",
               conditions := [mkCond "amount" "greater_than" "10000"], matchLogic := "all" } =
      { name := "High Amount", description := "", priority := "High", status := "Active",
        conditions := [mkCond "amount" "greater_than" "10000"], matchLogic := "all" } :=
  ⟨rfl, rfl⟩

/-- C10: for `1 ≤ currentPage ≤ totalPages` the Previous control is disabled
exactly at page 1 and the Next control exactly at the last page, and every
page an enabled control can request (`currentPage - 1` or `currentPage + 1`)
lies within `[1, totalPages]`. -/
theorem pagination_requests_in_range (c t : Int) (h1 : 1 ≤ c) (h2 : c ≤ t) :
    (prevDisabled c = true ↔ c = 1) ∧
    (nextDisabled c t = true ↔ c = t) ∧
    (prevDisabled c = false → 1 ≤ prevTarget c ∧ prevTarget c ≤ t) ∧
    (nextDisabled c t = false → 1 ≤ nextTarget c ∧ nextTarget c ≤ t) := by
  refine ⟨?_, ?_, ?_, ?_⟩ <;>
    simp only [prevDisabled, nextDisabled, prevTarget, nextTarget, decide_eq_true_eq,
      decide_eq_false_iff_not] <;>
    omega

/-- Witness for `pagination_requests_in_range` at page 2 of 3. -/
theorem pagination_requests_in_range_witness :
    (1 ≤ prevTarget 2 ∧ prevTarget 2 ≤ 3) ∧ (1 ≤ nextTarget 2 ∧ nextTarget 2 ≤ 3) := by
  have h := pagination_requests_in_range 2 3 (by decide) (by decide)
  exact ⟨h.2.2.1 (by decide), h.2.2.2 (by decide)⟩

/-- C2, counterexample: `updateCondition` on the empty condition list with
index 0 neither fails nor leaves the list unchanged — JavaScript index
assignment grows the array, producing a one-element list whose only entry is
the partial object `{field: "x"}`. -/
theorem updateCondition_out_of_range_changes_list :
    updateCondition [] 0 CondKey.field "x" = [some ⟨JSStr.str "x", JSStr.undef, JSStr.undef⟩] ∧
    updateCondition [] 0 CondKey.field "x" ≠ ([] : List (Option Condition)) :=
  ⟨rfl, by decide⟩

/-- C2, amended: `updateCondition` never fails on an out-of-range index.
For a negative index the element sequence is unchanged (the write becomes a
non-index property); for an index at or past the length the array is extended
with holes up to `index`, where a partial object carrying only the named
attribute is placed. -/
theorem updateCondition_out_of_range_total (conds : List (Option Condition)) (index : Int)
    (k : CondKey) (v : String) (h : index < 0 ∨ (conds.length : Int) ≤ index) :
    updateCondition conds index k v =
      if index < 0 then conds
      else conds ++ List.replicate (index.toNat - conds.length) none
        ++ [some (spreadUpdate none k v)] := by
  unfold updateCondition
  rcases h with h | h
  · simp [h]
  · have h0 : ¬ index < 0 := by omega
    have h1 : ¬ index.toNat < conds.length := by omega
    simp [h0, h1]

/-- Witness for `updateCondition_out_of_range_total` at index 5 of a
one-element list. -/
theorem updateCondition_out_of_range_total_witness :
    ((5 : Int) < 0 ∨ (([mkCond "time" "outside" "9:00-17:00"].length : Int) ≤ 5)) ∧
    updateCondition [mkCond "time" "outside" "9:00-17:00"] 5 CondKey.value "9" =
      (if (5 : Int) < 0 then [mkCond "time" "outside" "9:00-17:00"]
       else [mkCond "time" "outside" "9:00-17:00"]
         ++ List.replicate ((5 : Int).toNat - [mkCond "time" "outside" "9:00-17:00"].length) none
         ++ [some (spreadUpdate none CondKey.value "9")]) :=
  ⟨Or.inr (by decide),
    updateCondition_out_of_range_total [mkCond "time" "outside" "9:00-17:00"] 5
      CondKey.value "9" (Or.inr (by decide))⟩

/-- C6: for a valid index whose element is a (non-hole) condition,
`updateCondition` keeps the length, replaces only the named attribute of the
targeted condition, and leaves every other position and every other attribute
of the target exactly as before. -/
theorem updateCondition_valid_index_frame (conds : List (Option Condition)) (i : Nat)
    (c : Condition) (k : CondKey) (v : String) (hc : conds[i]? = some (some c)) :
    (updateCondition conds (i : Int) k v).length = conds.length ∧
    (updateCondition conds (i : Int) k v)[i]? = some (some (c.setKey k (.str v))) ∧
    (∀ j : Nat, j ≠ i → (updateCondition conds (i : Int) k v)[j]? = conds[j]?) ∧
    (∀ k' : CondKey, k' ≠ k → (c.setKey k (.str v)).getKey k' = c.getKey k') := by
  have hi : i < conds.length := (List.getElem?_eq_some_iff.mp hc).1
  have hlt : ¬ (i : Int) < 0 := by omega
  have htn : (i : Int).toNat = i := Int.toNat_natCast i
  have hgetD : conds.getD i none = some c := by
    rw [List.getD_eq_getElem?_getD, hc]; rfl
  have hupd : updateCondition conds (i : Int) k v
      = conds.set i (some (c.setKey k (.str v))) := by
    unfold updateCondition
    rw [if_neg hlt, htn, if_pos hi, hgetD]
    rfl
  refine ⟨?_, ?_, ?_, ?_⟩
  · rw [hupd]; exact List.length_set conds i _
  · rw [hupd]; simp [List.getElem?_set_self', hi]
  · intro j hj
    rw [hupd]
    exact List.getElem?_set_ne (Ne.symm hj)
  · intro k' hk'
    cases k <;> cases k' <;> first
      | exact absurd rfl hk'
      | rfl

/-- Witness for `updateCondition_valid_index_frame` at index 0 of the default
conditions. -/
theorem updateCondition_valid_index_frame_witness :
    (updateCondition defaultConditions 0 CondKey.value "500").length
      = defaultConditions.length ∧
    (updateCondition defaultConditions 0 CondKey.value "500")[1]? = defaultConditions[1]? := by
  have h := updateCondition_valid_index_frame defaultConditions 0
    ⟨.str "amount", .str "greater_than", .str "10000"⟩ CondKey.value "500" rfl
  exact ⟨h.1, h.2.2.1 1 (by decide)⟩

/-- Every position counted from `i` onward differs from `index`, so the
filter of `removeCondition` keeps everything. -/
theorem filterOutIndex_out_of_range (index : Int) (conds : List (Option Condition)) :
    ∀ i : Nat, (index < (i : Int) ∨ (i : Int) + (conds.length : Int) ≤ index) →
      filterOutIndex index i conds = conds := by
  induction conds with
  | nil => intro i _; rfl
  | cons c rest ih =>
    intro i h
    simp only [List.length_cons] at h
    have hne : ¬ ((i : Int) = index) := by omega
    have h' : index < ((i + 1 : Nat) : Int)
        ∨ ((i + 1 : Nat) : Int) + (rest.length : Int) ≤ index := by
      push_cast at h ⊢
      omega
    simp only [filterOutIndex, if_neg hne, ih (i + 1) h']

/-- When `index` names the position `i + n`, the filter of `removeCondition`
drops exactly that element. -/
theorem filterOutIndex_in_range (index : Int) (conds : List (Option Condition)) :
    ∀ (i n : Nat), n < conds.length → index = ((i + n : Nat) : Int) →
      filterOutIndex index i conds = conds.take n ++ conds.drop (n + 1) := by
  induction conds with
  | nil =>
    intro i n hn _
    exact absurd hn (by simp)
  | cons c rest ih =>
    intro i n hn hidx
    cases n with
    | zero =>
      have heq : ((i : Int) = index) := by omega
      simp only [filterOutIndex, if_pos heq]
      rw [filterOutIndex_out_of_range index rest (i + 1) (Or.inl (by push_cast; omega))]
      simp
    | succ m =>
      have hne : ¬ ((i : Int) = index) := by push_cast at hidx; omega
      have hm : m < rest.length := by
        simpa using Nat.lt_of_succ_lt_succ hn
      have hidx' : index = ((i + 1 + m : Nat) : Int) := by push_cast at hidx ⊢; omega
      simp only [filterOutIndex, if_neg hne, ih (i + 1) m hm hidx']
      simp

/-- C7: for a valid index, `removeCondition` returns the list with exactly
the element at that position dropped (so the length shrinks by 1 and the
relative order of the remaining conditions is preserved); for a negative or
too-large index it returns the list unchanged. -/
theorem removeCondition_spec (conds : List (Option Condition)) (index : Int) :
    (0 ≤ index → index.toNat < conds.length →
      removeCondition conds index
        = conds.take index.toNat ++ conds.drop (index.toNat + 1) ∧
      (removeCondition conds index).length + 1 = conds.length) ∧
    ((index < 0 ∨ (conds.length : Int) ≤ index) → removeCondition conds index = conds) := by
  constructor
  · intro h0 hlt
    have heq : removeCondition conds index
        = conds.take index.toNat ++ conds.drop (index.toNat + 1) :=
      filterOutIndex_in_range index conds 0 index.toNat hlt (by omega)
    refine ⟨heq, ?_⟩
    rw [heq]
    simp only [List.length_append, List.length_take, List.length_drop]
    omega
  · intro h
    exact filterOutIndex_out_of_range index conds 0 (by omega)

/-- Witness for `removeCondition_spec`: removing index 1 of the two default
conditions, and the no-op at index -2. -/
theorem removeCondition_spec_witness :
    removeCondition defaultConditions 1
      = defaultConditions.take (1 : Int).toNat ++ defaultConditions.drop ((1 : Int).toNat + 1) ∧
    (removeCondition defaultConditions 1).length + 1 = defaultConditions.length ∧
    removeCondition defaultConditions (-2) = defaultConditions :=
  ⟨((removeCondition_spec defaultConditions 1).1 (by decide) (by decide)).1,
    ((removeCondition_spec defaultConditions 1).1 (by decide) (by decide)).2,
    (removeCondition_spec defaultConditions (-2)).2 (Or.inl (by decide))⟩
